import Mathlib

/-!
# Level1Scene

A shallow embedding of `src/scenes/Level1Scene.js`, the scene controller of the
first level, and the properties of it that the specification states.

Modelling conventions.

* JavaScript numbers (coordinates, velocities, time, score) are IEEE-754
  doubles, the type `Number`: a finite value is stored as its integer multiple
  of `2^(-1074)`, addition and subtraction round the exact result to the nearest
  double (ties to even, overflow to an infinity), comparison is exact and false
  on `NaN`.  The velocity arguments of `setVelocityX/Y` are the integer
  constants of the source (`-300`, `-200`, `-1 * 200`, `1 * 200`).
* A scene field that may be `undefined` is an `Option`; `none` is `undefined`.
* The engine and the collaborator classes (`Player`, `Goomba`, `FlyingEnemy`,
  `PowerUp`, `HUD`, `LevelManager`) live outside this file.  Every call the
  scene makes to them is appended, in program order, to `Scene.calls`; what the
  callee does internally is not part of the model.
* The registry is the engine's key/value store; this file reads and writes the
  numeric keys `score` and `currentLevel`.
* Definitions named `exact...` are the arithmetic of the specification's
  wording (no rounding); they are compared with the rounding arithmetic of the
  code.
* A method that can raise a `TypeError` (member access on an `undefined`
  field) yields `Outcome.threw` with the state reached at that point.
-/

namespace Level1Scene

/-- Modelled from the spec: `config/constants.js` is not among the sources; the
scene imports `SCENES` from it and uses the keys `SCENES.MENU`, `SCENES.LEVEL1`
and `SCENES.LEVEL2`, taken here as three distinct values. -/
inductive SceneKey
  | MENU
  | LEVEL1
  | LEVEL2
  deriving DecidableEq, Repr

/-- A JavaScript number, an IEEE-754 double.  Every finite double is an integer
multiple of the smallest subnormal `2^(-1074)`; `fin k` is the finite value
`k * 2^(-1074)`.  The doubles are the values that are `representable`; the
arithmetic of the code rounds every result to one.  The two zeros `+0` and
`-0` are identified: comparison, truthiness and adding or subtracting a
non-zero constant, the only operations of the scene, do not tell them
apart. -/
inductive Number
  | fin (k : Int)
  | posInf
  | negInf
  | nan
  deriving DecidableEq, Repr

/-- The number 1 in units of `2^(-1074)`, that is `2^1074`. -/
def Number.unit : Nat := 1 <<< 1074

/-- The first magnitude that is no finite double, `2^1024`, in units of
`2^(-1074)`: `2^2098`. -/
def Number.limit : Nat := 1 <<< 2098

/-- The number with integer value `n`. -/
def Number.ofInt (n : Int) : Number := .fin (n * Number.unit)

instance (n : Nat) : OfNat Number n := ⟨Number.ofInt n⟩

/-- Binary search for the position of the leading bit: the largest `e` in
`[lo, lo + 2^steps)` with `2^e ≤ n`, given `2^lo ≤ n`. -/
def Number.log2Search : Nat → Nat → Nat → Nat
  | 0, lo, _ => lo
  | steps + 1, lo, n =>
    if 1 <<< (lo + (1 <<< steps)) ≤ n then
      Number.log2Search steps (lo + (1 <<< steps)) n
    else
      Number.log2Search steps lo n

/-- The position of the leading bit of `n`, for `0 < n < 2^4096`; 0 for 0. -/
def Number.log2 (n : Nat) : Nat := Number.log2Search 12 0 n

/-- The spacing of the doubles around the value `k * 2^(-1074)`, in the same
units: 53 significant bits, and never finer than the subnormal spacing 1.
(From `2^4096` on, far beyond the overflow threshold `2^2098`, `round` yields
an infinity whatever the spacing.) -/
def Number.ulp (k : Int) : Nat := 1 <<< (Number.log2 k.natAbs - 52)

/-- The multiple of `u` nearest to `k`; of two equally near ones the even
multiple. -/
def Number.nearest (k : Int) (u : Nat) : Int :=
  let q := k / u
  let r := k % u
  if 2 * r < u then q * u
  else if (u : Int) < 2 * r then (q + 1) * u
  else if q % 2 = 0 then q * u
  else (q + 1) * u

/-- Rounding of the exact value `k * 2^(-1074)` to a double: to nearest, ties
to even, and to an infinity from `2^1024` on. -/
def Number.round (k : Int) : Number :=
  let v := Number.nearest k (Number.ulp k)
  if (Number.limit : Int) ≤ v then .posInf
  else if v ≤ -(Number.limit : Int) then .negInf
  else .fin v

/-- Whether a value is a double: rounding leaves it as it is. -/
def Number.representable : Number → Prop
  | .fin k => Number.round k = .fin k
  | _ => True

instance (a : Number) : Decidable a.representable := by
  cases a <;> unfold Number.representable <;> infer_instance

/-- The operator `+` on numbers. -/
def Number.add : Number → Number → Number
  | .fin a, .fin b => Number.round (a + b)
  | .nan, _ => .nan
  | _, .nan => .nan
  | .posInf, .negInf => .nan
  | .negInf, .posInf => .nan
  | .posInf, _ => .posInf
  | _, .posInf => .posInf
  | .negInf, _ => .negInf
  | _, .negInf => .negInf

/-- Unary minus on numbers. -/
def Number.neg : Number → Number
  | .fin a => .fin (-a)
  | .posInf => .negInf
  | .negInf => .posInf
  | .nan => .nan

/-- The operator `-` on numbers. -/
def Number.sub (a b : Number) : Number :=
  Number.add a (Number.neg b)

/-- The operator `<` on numbers: exact, and false when an operand is `NaN`. -/
def Number.lt : Number → Number → Bool
  | .fin a, .fin b => decide (a < b)
  | .nan, _ => false
  | _, .nan => false
  | .negInf, .negInf => false
  | .negInf, _ => true
  | _, .negInf => false
  | .posInf, _ => false
  | _, .posInf => true

instance : Add Number := ⟨Number.add⟩

instance : Sub Number := ⟨Number.sub⟩

instance : LT Number := ⟨fun a b => Number.lt a b = true⟩

instance (a b : Number) : Decidable (a < b) :=
  inferInstanceAs (Decidable (Number.lt a b = true))

/-- Specification side: the sum without rounding. -/
def Number.exactAdd : Number → Number → Number
  | .fin a, .fin b => .fin (a + b)
  | a, b => Number.add a b

/-- Specification side: the difference without rounding. -/
def Number.exactSub (a b : Number) : Number :=
  Number.exactAdd a (Number.neg b)

/-- A position object `{x, y}` of the level description. -/
structure Point where
  x : Number
  y : Number
  deriving DecidableEq, Repr

/-- One entry of the level description's enemy list. -/
structure EnemyData where
  type : String
  x : Number
  y : Number
  deriving DecidableEq, Repr

/-- One entry of the level description's power-up list. -/
structure PowerUpData where
  type : String
  x : Number
  y : Number
  deriving DecidableEq, Repr

/-- The field `levelData` of a loaded level. -/
structure LevelData where
  enemies : List EnemyData
  powerups : List PowerUpData
  deriving DecidableEq, Repr

/-- The engine object holding the tile platforms of a loaded level. -/
structure Platforms where
  handle : Nat
  deriving DecidableEq, Repr

/-- Modelled from the spec: `utils/LevelManager.js` is not among the sources; a
truthy result of `LevelManager.loadLevel` carries the platforms, the level
data (enemy list and power-up list, each entry a type and a position), the
player start coordinates and the goal position. -/
structure Level where
  platforms : Platforms
  levelData : LevelData
  playerStart : Point
  goal : Point
  deriving DecidableEq, Repr

/-- Modelled from the spec: `entities/Player.js` is not among the sources; the
object built by `new Player(scene, x, y)` is identified by the constructor
arguments. -/
structure PlayerObj where
  x : Number
  y : Number
  deriving DecidableEq, Repr

/-- The two enemy classes the scene instantiates. -/
inductive EnemyClass
  | Goomba
  | FlyingEnemy
  deriving DecidableEq, Repr

/-- A member of the enemies group: its class, its position, and whether it
carries an `update` method (what `enemy.update` tests in `update`). -/
structure EnemyObj where
  cls : EnemyClass
  x : Number
  y : Number
  hasUpdate : Bool
  deriving DecidableEq, Repr

/-- Modelled from the spec: `entities/PowerUp.js` is not among the sources; the
object built by `new PowerUp(scene, x, y, type)` is identified by the
constructor arguments. -/
structure PowerUpObj where
  x : Number
  y : Number
  type : String
  deriving DecidableEq, Repr

/-- The text object built by `this.add.text(x, y, ...)` in `createGoal`. -/
structure GoalObj where
  x : Number
  y : Number
  deriving DecidableEq, Repr

/-- Modelled from the spec: `utils/HUD.js` is not among the sources; the object
built by `new HUD(scene)` has no property the scene reads. -/
structure HudObj where
  deriving DecidableEq, Repr

/-- What `handlePlayerEnemyCollision` reads of its `player` argument:
`player.x`, `player.y`, `player.body.velocity.y` and `player.isInvincible`. -/
structure PlayerBody where
  x : Number
  y : Number
  velocityY : Number
  isInvincible : Bool
  deriving DecidableEq, Repr

/-- The scene fields that are passed to `physics.add.collider/overlap`. -/
inductive Target
  | player
  | platforms
  | enemies
  | powerups
  | goal
  deriving DecidableEq, Repr

/-- The callbacks the scene registers with the engine. -/
inductive Callback
  | handlePlayerEnemyCollision
  | handlePlayerPowerUpCollision
  | goalOverlap
  | keydownESC
  deriving DecidableEq, Repr

/-- A call from the scene into the engine or a collaborator class. -/
inductive Call
  | loadLevel (key : String)
  | consoleError (msg : String)
  | newPlayer (x y : Number)
  | addGroup
  | newGoomba (x y : Number)
  | newFlyingEnemy (x y : Number)
  | newPowerUp (x y : Number) (type : String)
  | addCollider (a b : Target)
  | addOverlap (a b : Target) (cb : Callback)
  | cameraStartFollow
  | addText (x y : Number) (text : String)
  | goalSetOrigin
  | tweenAdd (targetY : Number) (duration : Int)
  | addExisting
  | newHUD
  | keyboardOn (event : String) (cb : Callback)
  | sceneStart (key : SceneKey)
  | playerUpdate (p : PlayerObj) (time delta : Number)
  | hudUpdate (h : HudObj) (p : PlayerObj)
  | enemyUpdate (e : EnemyObj)
  | powerupCollect (powerup : PowerUpObj) (player : PlayerBody)
  | enemyTakeDamage (e : EnemyObj)
  | playerTakeDamage (p : PlayerBody)
  | playerSetVelocityX (p : PlayerBody) (v : Int)
  | playerSetVelocityY (p : PlayerBody) (v : Int)
  deriving DecidableEq, Repr

/-- The engine registry: `get` is application, an unset key is `none`. -/
abbrev Registry := String → Option Number

/-- The method `registry.set(key, value)`. -/
def Registry.set (r : Registry) (key : String) (value : Number) : Registry :=
  fun k => if k = key then some value else r k

/-- The state of the scene: its fields, the registry, and the calls made. -/
structure Scene where
  platforms : Option Platforms
  levelData : Option LevelData
  player : Option PlayerObj
  enemies : Option (List (Option EnemyObj))
  powerups : Option (List PowerUpObj)
  goal : Option GoalObj
  hud : Option HudObj
  levelCompleting : Option Bool
  registry : Registry
  calls : List Call

/-- Record a call to the engine or to a collaborator. -/
def Scene.emit (s : Scene) (c : Call) : Scene :=
  { s with calls := s.calls ++ [c] }

/-- How a method ends: normally, or by raising a `TypeError`. -/
inductive Outcome
  | returned (s : Scene)
  | threw (s : Scene)

/-- The scene state a method leaves behind. -/
def Outcome.scene : Outcome → Scene
  | .returned s => s
  | .threw s => s

/-- Sequencing: the rest of a method body runs only if the call returned. -/
def Outcome.andThen (o : Outcome) (f : Scene → Outcome) : Outcome :=
  match o with
  | .returned s => f s
  | .threw s => .threw s

/-- JavaScript truthiness of the field `levelCompleting`. -/
def truthy : Option Bool → Bool
  | some b => b
  | none => false

/-- The expression `value || 0` on a registry value: an unset key reads as
`undefined`, and `undefined`, `0` and `NaN` are the falsy values. -/
def orZero : Option Number → Number
  | some v => if v = 0 ∨ v = .nan then 0 else v
  | none => 0

/-- Modelled from the spec: `entities/Goomba.js` and `entities/FlyingEnemy.js`
are not among the sources; the object built by `new Goomba(scene, x, y)` or
`new FlyingEnemy(scene, x, y)` is an enemy of that class at the position
given, and it carries the `update` method the per-frame call is forwarded
to. -/
def EnemyObj.new (cls : EnemyClass) (x y : Number) : EnemyObj :=
  { cls := cls, x := x, y := y, hasUpdate := true }

/-- The object the body of the `forEach` in `createEnemies` builds for one
entry, with the constructor call it makes; `none` when `enemy` stays
`undefined`. -/
def newEnemy (enemyData : EnemyData) : Option (Call × EnemyObj) :=
  if enemyData.type = "slime" then
    some (.newGoomba enemyData.x enemyData.y,
      EnemyObj.new .Goomba enemyData.x enemyData.y)
  else if enemyData.type = "flying" then
    some (.newFlyingEnemy enemyData.x enemyData.y,
      EnemyObj.new .FlyingEnemy enemyData.x enemyData.y)
  else
    none

/-- The method `createEnemies(enemiesData)`. -/
def createEnemies : List EnemyData → Scene → Outcome
  | [], s => .returned s
  | enemyData :: rest, s =>
    match newEnemy enemyData with
    | none => createEnemies rest s
    | some (ctor, enemy) =>
      let s1 := s.emit ctor
      match s1.enemies with
      | none => .threw s1
      | some group =>
        createEnemies rest { s1 with enemies := some (group ++ [some enemy]) }

/-- The method `createPowerUps(powerupsData)`. -/
def createPowerUps : List PowerUpData → Scene → Outcome
  | [], s => .returned s
  | powerupData :: rest, s =>
    let s1 := s.emit (.newPowerUp powerupData.x powerupData.y powerupData.type)
    match s1.powerups with
    | none => .threw s1
    | some group =>
      let powerup : PowerUpObj := ⟨powerupData.x, powerupData.y, powerupData.type⟩
      createPowerUps rest { s1 with powerups := some (group ++ [powerup]) }

/-- The method `handlePlayerPowerUpCollision(player, powerup)`. -/
def handlePlayerPowerUpCollision (player : PlayerBody) (powerup : PowerUpObj)
    (s : Scene) : Scene :=
  s.emit (.powerupCollect powerup player)

/-- The method `handlePlayerEnemyCollision(player, enemy)`. -/
def handlePlayerEnemyCollision (player : PlayerBody) (enemy : EnemyObj)
    (s : Scene) : Scene :=
  if player.velocityY > 0 ∧ player.y < enemy.y - 10 then
    let s1 := s.emit (.enemyTakeDamage enemy)
    let s2 := s1.emit (.playerSetVelocityY player (-300))
    let currentScore := orZero (s2.registry "score")
    { s2 with registry := s2.registry.set "score" (currentScore + 100) }
  else
    if !player.isInvincible then
      let s1 := s.emit (.playerTakeDamage player)
      let knockbackDirection : Int := if player.x < enemy.x then -1 else 1
      let s2 := s1.emit (.playerSetVelocityX player (knockbackDirection * 200))
      s2.emit (.playerSetVelocityY player (-200))
    else
      s

/-- The method `levelComplete()`. -/
def levelComplete (s : Scene) : Scene :=
  let s1 := { s with levelCompleting := some true }
  let s2 := { s1 with registry := s1.registry.set "currentLevel" 2 }
  s2.emit (.sceneStart .LEVEL2)

/-- The overlap callback `createGoal` registers for player and goal. -/
def goalOverlap (s : Scene) : Scene :=
  if !truthy s.levelCompleting then levelComplete s else s

/-- The method `createGoal(goalData)`. -/
def createGoal (goalData : Point) (s : Scene) : Scene :=
  let s1 := { (s.emit (.addText goalData.x goalData.y "⭐")) with
    goal := some ⟨goalData.x, goalData.y⟩ }
  let s2 := s1.emit .goalSetOrigin
  let s3 := s2.emit (.tweenAdd (goalData.y - 20) 1000)
  let s4 := s3.emit .addExisting
  let s5 := { s4 with levelCompleting := some false }
  s5.emit (.addOverlap .player .goal .goalOverlap)

/-- The `keydown-ESC` listener `create` registers. -/
def keydownESC (s : Scene) : Scene :=
  s.emit (.sceneStart .MENU)

/-- The method `create()`, given what `LevelManager.loadLevel(this, 'level1')`
returns: `none` is a falsy result. -/
def create (level : Option Level) (s : Scene) : Outcome :=
  let s0 := s.emit (.loadLevel "level1")
  match level with
  | none => .returned (s0.emit (.consoleError "Failed to load level!"))
  | some level =>
    let s1 := { s0 with platforms := some level.platforms }
    let s2 := { s1 with levelData := some level.levelData }
    let s3 := { (s2.emit (.newPlayer level.playerStart.x level.playerStart.y)) with
      player := some ⟨level.playerStart.x, level.playerStart.y⟩ }
    let s4 := { (s3.emit .addGroup) with enemies := some [] }
    (createEnemies level.levelData.enemies s4).andThen fun s5 =>
    let s6 := { (s5.emit .addGroup) with powerups := some [] }
    (createPowerUps level.levelData.powerups s6).andThen fun s7 =>
    let s8 := s7.emit (.addCollider .player .platforms)
    let s9 := s8.emit (.addCollider .enemies .platforms)
    let s10 := s9.emit (.addOverlap .player .enemies .handlePlayerEnemyCollision)
    let s11 := s10.emit (.addOverlap .player .powerups .handlePlayerPowerUpCollision)
    let s12 := s11.emit .cameraStartFollow
    let s13 := createGoal level.goal s12
    let s14 := { (s13.emit .newHUD) with hud := some ⟨⟩ }
    .returned (s14.emit (.keyboardOn "keydown-ESC" .keydownESC))

/-- The body of the `forEach` in `update`, for one entry of the group. -/
def updateEnemy (s : Scene) (enemy : Option EnemyObj) : Scene :=
  match enemy with
  | some e => if e.hasUpdate then s.emit (.enemyUpdate e) else s
  | none => s

/-- The first statement of `update`: the `if (this.player)` block. -/
def updatePlayer (time delta : Number) (s : Scene) : Scene :=
  match s.player with
  | some p =>
    let s0 := s.emit (.playerUpdate p time delta)
    match s0.hud with
    | some h => s0.emit (.hudUpdate h p)
    | none => s0
  | none => s

/-- The second statement of `update`:
`this.enemies.children.entries.forEach(...)`. -/
def updateEnemies (s : Scene) : Outcome :=
  match s.enemies with
  | none => .threw s
  | some group => .returned (group.foldl updateEnemy s)

/-- The method `update(time, delta)`. -/
def update (time delta : Number) (s : Scene) : Outcome :=
  updateEnemies (updatePlayer time delta s)

/-- An operation on the scene: a method call or a registered callback. -/
inductive Op
  | create (level : Option Level)
  | update (time delta : Number)
  | createEnemies (enemiesData : List EnemyData)
  | createPowerUps (powerupsData : List PowerUpData)
  | handlePlayerPowerUpCollision (player : PlayerBody) (powerup : PowerUpObj)
  | handlePlayerEnemyCollision (player : PlayerBody) (enemy : EnemyObj)
  | createGoal (goalData : Point)
  | goalOverlap
  | levelComplete
  | keydownESC

/-- Run one operation. -/
def Op.run : Op → Scene → Outcome
  | .create level, s => Level1Scene.create level s
  | .update time delta, s => Level1Scene.update time delta s
  | .createEnemies d, s => Level1Scene.createEnemies d s
  | .createPowerUps d, s => Level1Scene.createPowerUps d s
  | .handlePlayerPowerUpCollision p u, s =>
    .returned (Level1Scene.handlePlayerPowerUpCollision p u s)
  | .handlePlayerEnemyCollision p e, s =>
    .returned (Level1Scene.handlePlayerEnemyCollision p e s)
  | .createGoal g, s => .returned (Level1Scene.createGoal g s)
  | .goalOverlap, s => .returned (Level1Scene.goalOverlap s)
  | .levelComplete, s => .returned (Level1Scene.levelComplete s)
  | .keydownESC, s => .returned (Level1Scene.keydownESC s)

/-- Run a sequence of operations; each starts from the state the previous one
left, whether it returned or threw. -/
def runOps : List Op → Scene → Scene
  | [], s => s
  | op :: ops, s => runOps ops (op.run s).scene

/-- An event the engine delivers to the scene once `create` has run. -/
inductive Event
  | frame (time delta : Number)
  | enemyOverlap (player : PlayerBody) (enemy : EnemyObj)
  | powerUpOverlap (player : PlayerBody) (powerup : PowerUpObj)
  | keydownESC
  | goalOverlap

/-- The operation an event triggers. -/
def Event.toOp : Event → Op
  | .frame time delta => .update time delta
  | .enemyOverlap p e => .handlePlayerEnemyCollision p e
  | .powerUpOverlap p u => .handlePlayerPowerUpCollision p u
  | .keydownESC => .keydownESC
  | .goalOverlap => .goalOverlap

/-- Run a sequence of events. -/
def runEvents (events : List Event) (s : Scene) : Scene :=
  runOps (events.map Event.toOp) s

/-- Whether an operation is a `handlePlayerEnemyCollision` call whose
arguments satisfy the jump-from-above condition. -/
def Op.isStomp : Op → Bool
  | .handlePlayerEnemyCollision p e =>
    decide (p.velocityY > 0 ∧ p.y < e.y - 10)
  | _ => false

/-- The score the next stomp starts from, `registry.get('score') || 0`: an
unset (or falsy) score counts as 0. -/
def scoreOf (s : Scene) : Number :=
  orZero (s.registry "score")

/-- Specification side: the jump-from-above condition with the difference
`enemy.y - 10` taken exactly. -/
def exactFromAbove (player : PlayerBody) (enemy : EnemyObj) : Prop :=
  player.velocityY > 0 ∧ player.y < Number.exactSub enemy.y 10

instance (player : PlayerBody) (enemy : EnemyObj) :
    Decidable (exactFromAbove player enemy) := by
  unfold exactFromAbove; infer_instance

/-- A scene whose registry holds the given score and nothing else. -/
def sceneWithScore (score : Number) : Scene :=
  { platforms := none, levelData := none, player := none, enemies := none,
    powerups := none, goal := none, hud := none, levelCompleting := none,
    registry := Registry.set (fun _ => none) "score" score, calls := [] }

/-- A falling player at `y = 2^56 + 16`. -/
def highPlayer : PlayerBody :=
  { x := 40, y := Number.ofInt 72057594037927952, velocityY := 5,
    isInvincible := false }

/-- A Goomba at `y = 2^56 + 32`, 16 below `highPlayer`. -/
def highEnemy : EnemyObj :=
  { cls := .Goomba, x := 50, y := Number.ofInt 72057594037927968,
    hasUpdate := true }

/-- The targets of the `scene.start` calls in a call log, in order. -/
def sceneStarts : List Call → List SceneKey
  | [] => []
  | .sceneStart key :: rest => key :: sceneStarts rest
  | _ :: rest => sceneStarts rest

/-- The scene transitions the specification allows for a sequence of events:
`MENU` for each ESC keydown, `LEVEL2` for a player-goal overlap while the
level is not yet completing, nothing for any other event. -/
def expectedStarts : Bool → List Event → List SceneKey
  | _, [] => []
  | completing, .keydownESC :: rest => .MENU :: expectedStarts completing rest
  | completing, .goalOverlap :: rest =>
    if completing then expectedStarts completing rest
    else .LEVEL2 :: expectedStarts true rest
  | completing, _ :: rest => expectedStarts completing rest

/-- Whether an event is one of the two transition triggers. -/
def Event.isTrigger : Event → Bool
  | .keydownESC => true
  | .goalOverlap => true
  | _ => false

/-- Whether running an operation executes the body of `createGoal`: a direct
call, or a `create` whose level loaded. -/
def Op.runsCreateGoal : Op → Bool
  | .createGoal _ => true
  | .create (some _) => true
  | _ => false

/-- Specification side of `createEnemies`: the entry types the level format
knows, `slime` and `flying`. -/
def specKnownType (enemyData : EnemyData) : Bool :=
  decide (enemyData.type = "slime" ∨ enemyData.type = "flying")

/-- Specification side of `createEnemies`: the enemy an entry of a known type
describes, a Goomba for `slime` and a FlyingEnemy for `flying`, at the entry's
position. -/
def specEnemy (enemyData : EnemyData) : EnemyObj :=
  { cls := if enemyData.type = "slime" then .Goomba else .FlyingEnemy,
    x := enemyData.x, y := enemyData.y, hasUpdate := true }

/-- Specification side of `createEnemies`: the constructor call for an entry
of a known type. -/
def specEnemyCtor (enemyData : EnemyData) : Call :=
  if enemyData.type = "slime" then .newGoomba enemyData.x enemyData.y
  else .newFlyingEnemy enemyData.x enemyData.y

/-- The members of a group that `update` forwards the frame to: the entries
that are objects with an `update` method. -/
def updatable (group : List (Option EnemyObj)) : List EnemyObj :=
  (group.filterMap id).filter fun e => e.hasUpdate

/-- A player falling at speed 5, 20 above the sample enemy. -/
def samplePlayer : PlayerBody :=
  { x := 40, y := 80, velocityY := 5, isInvincible := false }

/-- A player standing level with the sample enemy, to its left. -/
def sampleWalker : PlayerBody :=
  { x := 40, y := 100, velocityY := 0, isInvincible := false }

/-- A Goomba at (50, 100). -/
def sampleEnemy : EnemyObj :=
  { cls := .Goomba, x := 50, y := 100, hasUpdate := true }

/-- A scene whose enemies group exists and is empty. -/
def sceneWithGroup : Scene :=
  { platforms := none, levelData := none, player := none, enemies := some [],
    powerups := none, goal := none, hud := none, levelCompleting := none,
    registry := fun _ => none, calls := [] }

/-- A level with one enemy of each class, one entry of an unknown type and one
power-up. -/
def sampleLevel : Level :=
  { platforms := ⟨0⟩,
    levelData :=
      { enemies := [⟨"slime", 300, 500⟩, ⟨"boss", 1, 1⟩, ⟨"flying", 600, 200⟩],
        powerups := [⟨"mushroom", 400, 450⟩] },
    playerStart := ⟨100, 500⟩,
    goal := ⟨3000, 500⟩ }

/-- A scene before `create`: every field `undefined`, empty registry. -/
def Scene.initial : Scene :=
  { platforms := none, levelData := none, player := none, enemies := none,
    powerups := none, goal := none, hud := none, levelCompleting := none,
    registry := fun _ => none, calls := [] }

/-! ## Numbers -/

theorem Number.unit_eq : Number.unit = 2 ^ 1074 := Nat.one_shiftLeft 1074

theorem Number.limit_eq : Number.limit = 2 ^ 2098 := Nat.one_shiftLeft 2098

theorem Number.log2Search_le (steps : Nat) :
    ∀ lo n : Nat, 2 ^ lo ≤ n → 2 ^ Number.log2Search steps lo n ≤ n := by
  induction steps with
  | zero => intro lo n h; exact h
  | succ steps ih =>
    intro lo n h
    unfold Number.log2Search
    by_cases hc : 1 <<< (lo + (1 <<< steps)) ≤ n
    · rw [if_pos hc]
      exact ih _ n (by rw [Nat.one_shiftLeft] at hc; exact hc)
    · rw [if_neg hc]
      exact ih lo n h

theorem Number.log2_le (n : Nat) (h : 0 < n) : 2 ^ Number.log2 n ≤ n :=
  Number.log2Search_le 12 0 n h

theorem Number.ulp_eq (k : Int) :
    Number.ulp k = 2 ^ (Number.log2 k.natAbs - 52) := Nat.one_shiftLeft _

theorem Number.ulp_pos (k : Int) : 0 < Number.ulp k := by
  rw [Number.ulp_eq]; positivity

theorem Number.nearest_of_dvd (k : Int) (u : Nat) (hu : 0 < u)
    (h : (u : Int) ∣ k) : Number.nearest k u = k := by
  have hr : k % (u : Int) = 0 := Int.emod_eq_zero_of_dvd h
  have hu2 : (0 : Int) < u := by exact_mod_cast hu
  unfold Number.nearest
  simp only [hr]
  rw [if_pos (by simpa using hu2)]
  exact Int.ediv_mul_cancel h

theorem Number.ulp_dvd_ofInt (m : Int) (h : m.natAbs ≤ 2 ^ 53) :
    (Number.ulp (m * Number.unit) : Int) ∣ m * Number.unit := by
  rw [Int.natCast_dvd, Number.ulp_eq, Int.natAbs_mul, Int.natAbs_ofNat,
    Number.unit_eq]
  rcases Nat.eq_zero_or_pos m.natAbs with h0 | hpos
  · rw [h0]; simp
  · have hK : 0 < m.natAbs * 2 ^ 1074 := Nat.mul_pos hpos (by positivity)
    have hle := Number.log2_le _ hK
    have hup : m.natAbs * 2 ^ 1074 ≤ 2 ^ 1127 := by
      calc m.natAbs * 2 ^ 1074 ≤ 2 ^ 53 * 2 ^ 1074 := Nat.mul_le_mul_right _ h
        _ = 2 ^ 1127 := by rw [← Nat.pow_add]
    have he : Number.log2 (m.natAbs * 2 ^ 1074) ≤ 1127 :=
      (Nat.pow_le_pow_iff_right (by norm_num)).mp (le_trans hle hup)
    rcases Nat.lt_or_ge (Number.log2 (m.natAbs * 2 ^ 1074)) 1127 with hlt | hge
    · exact Dvd.dvd.mul_left (pow_dvd_pow 2 (by omega)) _
    · have heq : Number.log2 (m.natAbs * 2 ^ 1074) = 1127 := le_antisymm he hge
      rw [heq] at hle ⊢
      have hKeq : m.natAbs * 2 ^ 1074 = 2 ^ 1127 := le_antisymm hup hle
      rw [hKeq]
      exact pow_dvd_pow 2 (by omega)

theorem Number.round_ofInt (m : Int) (h : m.natAbs ≤ 2 ^ 53) :
    Number.round (m * Number.unit) = .fin (m * Number.unit) := by
  have hn := Number.nearest_of_dvd _ _ (Number.ulp_pos _) (Number.ulp_dvd_ofInt m h)
  have hu : (0 : Int) < Number.unit := by
    rw [Number.unit_eq]; positivity
  have hl : (Number.limit : Int) = 2 ^ 1024 * Number.unit := by
    rw [Number.limit_eq, Number.unit_eq]; push_cast; rw [← pow_add]
  have hm : |m| ≤ 2 ^ 53 := by
    rw [Int.abs_eq_natAbs]; exact_mod_cast h
  have hm1 : m < 2 ^ 1024 := lt_of_le_of_lt (le_trans (le_abs_self m) hm)
    (by norm_num)
  have hm2 : -(2 ^ 1024) < m := lt_of_lt_of_le (by norm_num)
    (le_trans (neg_le_neg hm) (neg_abs_le m))
  unfold Number.round
  simp only [hn]
  rw [if_neg, if_neg]
  · rw [hl, not_le, ← neg_mul]
    exact mul_lt_mul_of_pos_right hm2 hu
  · rw [hl, not_le]
    exact mul_lt_mul_of_pos_right hm1 hu

theorem Number.ofInt_representable (m : Int) (h : m.natAbs ≤ 2 ^ 53) :
    (Number.ofInt m).representable :=
  Number.round_ofInt m h

theorem Number.add_def (a b : Number) : a + b = Number.add a b := rfl

theorem Number.sub_def (a b : Number) : a - b = Number.add a (Number.neg b) := rfl

theorem Number.lt_def (a b : Number) : (a < b) = (Number.lt a b = true) := rfl

theorem Number.ofNat_def (n : Nat) : (OfNat.ofNat n : Number) = Number.ofInt n := rfl

theorem Number.ofInt_add (a b : Int) (h : (a + b).natAbs ≤ 2 ^ 53) :
    Number.ofInt a + Number.ofInt b = Number.ofInt (a + b) := by
  show Number.round (a * Number.unit + b * Number.unit) = _
  rw [← add_mul, Number.round_ofInt _ h]
  rfl

theorem Number.ofInt_sub (a b : Int) (h : (a - b).natAbs ≤ 2 ^ 53) :
    Number.ofInt a - Number.ofInt b = Number.ofInt (a - b) := by
  show Number.round (a * Number.unit + -(b * Number.unit)) = _
  rw [← neg_mul, ← add_mul, ← sub_eq_add_neg, Number.round_ofInt _ h]
  rfl

theorem Number.add_eq_exactAdd (a b : Number)
    (h : (Number.exactAdd a b).representable) : a + b = Number.exactAdd a b := by
  cases a <;> cases b <;> first | rfl | exact h

theorem Number.sub_eq_exactSub (a b : Number)
    (h : (Number.exactSub a b).representable) : a - b = Number.exactSub a b :=
  Number.add_eq_exactAdd a (Number.neg b) h

theorem Number.lt_irrefl (a : Number) : ¬ a < a := by
  cases a <;> simp [Number.lt_def, Number.lt]

theorem Number.round_ne_nan (k : Int) : Number.round k ≠ .nan := by
  unfold Number.round
  simp only
  split
  · exact fun h => Number.noConfusion h
  · split
    · exact fun h => Number.noConfusion h
    · exact fun h => Number.noConfusion h

theorem Number.add_fin_ne_nan (a : Number) (c : Int) (ha : a ≠ .nan) :
    a + .fin c ≠ .nan := by
  cases a with
  | fin k => exact Number.round_ne_nan _
  | posInf => exact fun h => Number.noConfusion h
  | negInf => exact fun h => Number.noConfusion h
  | nan => exact absurd rfl ha

theorem orZero_ne_nan (v : Option Number) : orZero v ≠ .nan := by
  cases v with
  | none => exact fun h => Number.noConfusion h
  | some x =>
    show (if x = 0 ∨ x = Number.nan then (0 : Number) else x) ≠ Number.nan
    by_cases h : x = 0 ∨ x = .nan
    · rw [if_pos h]; exact fun h => Number.noConfusion h
    · rw [if_neg h]; exact fun hx => h (Or.inr hx)

theorem orZero_some (x : Number) (h : x ≠ .nan) : orZero (some x) = x := by
  show (if x = 0 ∨ x = Number.nan then (0 : Number) else x) = x
  by_cases h0 : x = 0
  · rw [if_pos (Or.inl h0), h0]
  · rw [if_neg]
    rintro (h1 | h1)
    · exact h0 h1
    · exact h h1

theorem orZero_add_100 (v : Option Number) :
    orZero (some (orZero v + 100)) = orZero v + 100 :=
  orZero_some _ (Number.add_fin_ne_nan _ _ (orZero_ne_nan v))

theorem iterate_add_100 (c : Nat) :
    ∀ n : Int, |n| + 100 * (c : Int) ≤ 2 ^ 53 →
      (fun x : Number => x + 100)^[c] (Number.ofInt n) =
        Number.ofInt (n + 100 * (c : Int)) := by
  induction c with
  | zero => intro n _; simp
  | succ c ih =>
    intro n h
    have hb := abs_le.mp (show |n| ≤ 2 ^ 53 - 100 * ((c + 1 : Nat) : Int) by omega)
    norm_num at hb h
    have h1 : (n + 100).natAbs ≤ 2 ^ 53 := by
      norm_num
      omega
    rw [Function.iterate_succ_apply]
    have e : Number.ofInt n + 100 = Number.ofInt (n + 100) :=
      Number.ofInt_add n 100 h1
    rw [e, ih (n + 100)]
    · congr 1
      push_cast
      ring
    · have h2 : |n + 100| ≤ |n| + 100 := by
        calc |n + 100| ≤ |n| + |(100 : Int)| := abs_add n 100
          _ = |n| + 100 := by norm_num
      push_cast at h ⊢
      norm_num
      omega

theorem Number.log2Search_lt (steps : Nat) :
    ∀ lo n : Nat, n < 2 ^ (lo + 2 ^ steps) →
      n < 2 ^ (Number.log2Search steps lo n + 1) := by
  induction steps with
  | zero => intro lo n h; simpa using h
  | succ steps ih =>
    intro lo n h
    unfold Number.log2Search
    by_cases hc : 1 <<< (lo + (1 <<< steps)) ≤ n
    · rw [if_pos hc]
      apply ih
      rw [Nat.one_shiftLeft]
      have e : lo + 2 ^ steps + 2 ^ steps = lo + 2 ^ (steps + 1) := by
        rw [pow_succ]; omega
      rw [e]; exact h
    · rw [if_neg hc]
      apply ih
      rw [Nat.one_shiftLeft, Nat.one_shiftLeft] at hc
      exact Nat.lt_of_not_le hc

theorem Number.lt_log2 (n : Nat) (h : n < 2 ^ 4096) :
    n < 2 ^ (Number.log2 n + 1) :=
  Number.log2Search_lt 12 0 n (by simpa using h)

theorem Number.log2_zero : Number.log2 0 = 0 := by decide

theorem Number.nearest_le_of_dvd (x b : Int) (u : Nat) (hu : 0 < u)
    (hb : (u : Int) ∣ b) (hxb : x ≤ b) : Number.nearest x u ≤ b := by
  have hu2 : (0 : Int) < u := by exact_mod_cast hu
  obtain ⟨m, rfl⟩ := hb
  have hdiv : (u : Int) * (x / u) + x % u = x := Int.ediv_add_emod x u
  have hr0 : 0 ≤ x % (u : Int) := Int.emod_nonneg x (ne_of_gt hu2)
  have hq : x / (u : Int) * u ≤ (u : Int) * m := by
    have : x / (u : Int) * u ≤ x := by
      rw [mul_comm]; linarith
    exact le_trans this hxb
  have hq1 : ¬ 2 * (x % (u : Int)) < u → (x / (u : Int) + 1) * u ≤ (u : Int) * m := by
    intro hn
    have hrpos : 0 < x % (u : Int) := by
      by_contra h0
      have : x % (u : Int) = 0 := le_antisymm (not_lt.mp h0) hr0
      rw [this] at hn
      exact hn (by simpa using hu2)
    have hlt : (u : Int) * (x / u) < (u : Int) * m := by linarith
    have hqm : x / (u : Int) < m := lt_of_mul_lt_mul_left hlt (le_of_lt hu2)
    have : x / (u : Int) + 1 ≤ m := hqm
    calc (x / (u : Int) + 1) * u ≤ m * u := mul_le_mul_of_nonneg_right this (le_of_lt hu2)
      _ = (u : Int) * m := mul_comm _ _
  unfold Number.nearest
  simp only
  split
  · exact hq
  · rename_i h1
    split
    · exact hq1 h1
    · split
      · exact hq
      · exact hq1 h1

theorem Number.nearest_dvd (x : Int) (u : Nat) : (u : Int) ∣ Number.nearest x u := by
  unfold Number.nearest
  simp only
  split
  · exact Dvd.intro_left _ rfl
  · split
    · exact Dvd.intro_left _ rfl
    · split
      · exact Dvd.intro_left _ rfl
      · exact Dvd.intro_left _ rfl

theorem Number.round_eq_fin (b : Int) (h : Number.round b = .fin b) :
    (Number.ulp b : Int) ∣ b ∧ b < Number.limit ∧ -(Number.limit : Int) < b := by
  unfold Number.round at h
  simp only at h
  split at h
  · exact Number.noConfusion h
  · rename_i h1
    split at h
    · exact Number.noConfusion h
    · rename_i h2
      have e : Number.nearest b (Number.ulp b) = b := Number.fin.inj h
      rw [e] at h1 h2
      refine ⟨?_, not_le.mp h1, not_le.mp h2⟩
      have := Number.nearest_dvd b (Number.ulp b)
      rw [e] at this
      exact this

theorem Number.nearest_le (x b : Int) (hxb : x ≤ b)
    (hb : Number.round b = .fin b) :
    Number.nearest x (Number.ulp x) ≤ b := by
  obtain ⟨hdvd, hlt, hgt⟩ := Number.round_eq_fin b hb
  rcases le_or_lt (Number.log2 x.natAbs) (Number.log2 b.natAbs) with hle | hlt2
  · apply Number.nearest_le_of_dvd x b _ (Number.ulp_pos x) _ hxb
    refine dvd_trans ?_ hdvd
    rw [Number.ulp_eq, Number.ulp_eq]
    exact_mod_cast pow_dvd_pow 2 (Nat.sub_le_sub_right hle 52)
  · have hbabs : b.natAbs < 2 ^ 4096 := by
      have h1 : (b.natAbs : Int) < Number.limit := by
        rw [Int.natCast_natAbs]; exact abs_lt.mpr ⟨hgt, hlt⟩
      have h2 : b.natAbs < Number.limit := by exact_mod_cast h1
      rw [Number.limit_eq] at h2
      exact lt_trans h2 (Nat.pow_lt_pow_right (by norm_num) (by norm_num))
    have hb1 := Number.lt_log2 b.natAbs hbabs
    have hxpos : 0 < x.natAbs := by
      rcases Nat.eq_zero_or_pos x.natAbs with h0 | h0
      · rw [h0, Number.log2_zero] at hlt2; omega
      · exact h0
    have hx1 := Number.log2_le x.natAbs hxpos
    have hpow : 2 ^ (Number.log2 b.natAbs + 1) ≤ 2 ^ Number.log2 x.natAbs :=
      Nat.pow_le_pow_right (by norm_num) hlt2
    have habs : b.natAbs < 2 ^ Number.log2 x.natAbs := lt_of_lt_of_le hb1 hpow
    have habs2 : (b.natAbs : Int) < ((2 ^ Number.log2 x.natAbs : Nat) : Int) := by
      exact_mod_cast habs
    have hx2 : ((2 ^ Number.log2 x.natAbs : Nat) : Int) ≤ (x.natAbs : Int) := by
      exact_mod_cast hx1
    rw [Int.natCast_natAbs] at habs2 hx2
    have hxneg : x < 0 := by
      by_contra hx0
      have hx0 : 0 ≤ x := not_lt.mp hx0
      rw [abs_of_nonneg hx0] at hx2
      have : b ≤ |b| := le_abs_self b
      linarith
    rw [abs_of_neg hxneg] at hx2
    have hstep : Number.nearest x (Number.ulp x) ≤
        -((2 ^ Number.log2 x.natAbs : Nat) : Int) := by
      apply Number.nearest_le_of_dvd x _ _ (Number.ulp_pos x)
      · rw [Number.ulp_eq, dvd_neg]
        exact_mod_cast pow_dvd_pow 2 (Nat.sub_le _ 52)
      · linarith
    have : -|b| ≤ b := neg_abs_le b
    linarith

theorem Number.lt_round (b x : Int) (hb : Number.round b = .fin b)
    (h : Number.fin b < Number.round x) : b < x := by
  by_contra hn
  have hxb : x ≤ b := not_lt.mp hn
  have hle := Number.nearest_le x b hxb hb
  obtain ⟨_, hlt, _⟩ := Number.round_eq_fin b hb
  have hr : Number.round x = .fin (Number.nearest x (Number.ulp x)) ∨
      Number.round x = .negInf := by
    unfold Number.round
    simp only
    split
    · rename_i h1; exact absurd (lt_of_le_of_lt hle hlt) (not_lt.mpr h1)
    · split
      · exact Or.inr rfl
      · exact Or.inl rfl
  rcases hr with hr | hr
  · rw [hr] at h
    have h2 : b < Number.nearest x (Number.ulp x) := of_decide_eq_true h
    exact absurd hle (not_le.mpr h2)
  · rw [hr] at h
    exact Bool.noConfusion h

theorem Number.posInf_not_lt (z : Number) : ¬ Number.posInf < z := by
  cases z <;> simp [Number.lt_def, Number.lt]

theorem Number.nan_not_lt (z : Number) : ¬ Number.nan < z := by
  cases z <;> simp [Number.lt_def, Number.lt]

theorem Number.lt_exact_of_lt_add (y a c : Number) (hy : y.representable)
    (h : y < a + c) : y < Number.exactAdd a c := by
  cases a with
  | fin ak =>
    cases c with
    | fin ck =>
      cases y with
      | fin yk =>
        have := Number.lt_round yk (ak + ck) hy h
        exact decide_eq_true this
      | posInf => exact absurd h (Number.posInf_not_lt _)
      | negInf => rfl
      | nan => exact absurd h (Number.nan_not_lt _)
    | posInf => exact h
    | negInf => exact h
    | nan => exact h
  | posInf => cases c <;> exact h
  | negInf => cases c <;> exact h
  | nan => cases c <;> exact h

theorem test_implies_exact (player : PlayerBody) (enemy : EnemyObj)
    (hy : player.y.representable)
    (h : player.velocityY > 0 ∧ player.y < enemy.y - 10) :
    exactFromAbove player enemy :=
  ⟨h.1, Number.lt_exact_of_lt_add player.y enemy.y (Number.neg 10) hy h.2⟩

/-! ## Basic facts -/

@[simp] theorem emit_calls (s : Scene) (c : Call) :
    (s.emit c).calls = s.calls ++ [c] := rfl

@[simp] theorem emit_registry (s : Scene) (c : Call) :
    (s.emit c).registry = s.registry := rfl

@[simp] theorem emit_levelCompleting (s : Scene) (c : Call) :
    (s.emit c).levelCompleting = s.levelCompleting := rfl

@[simp] theorem emit_player (s : Scene) (c : Call) :
    (s.emit c).player = s.player := rfl

@[simp] theorem emit_hud (s : Scene) (c : Call) :
    (s.emit c).hud = s.hud := rfl

@[simp] theorem emit_enemies (s : Scene) (c : Call) :
    (s.emit c).enemies = s.enemies := rfl

@[simp] theorem emit_powerups (s : Scene) (c : Call) :
    (s.emit c).powerups = s.powerups := rfl

theorem set_same (r : Registry) (key : String) (value : Number) :
    r.set key value key = some value := by
  simp [Registry.set]

theorem set_other (r : Registry) (key k : String) (value : Number)
    (h : k ≠ key) :
    r.set key value k = r k := by
  simp [Registry.set, h]

/-! ## The collision handler -/

theorem handle_stomp (player : PlayerBody) (enemy : EnemyObj) (s : Scene)
    (h : player.velocityY > 0 ∧ player.y < enemy.y - 10) :
    handlePlayerEnemyCollision player enemy s =
      { s with
        registry := s.registry.set "score" (scoreOf s + 100),
        calls := s.calls ++
          [.enemyTakeDamage enemy, .playerSetVelocityY player (-300)] } := by
  unfold handlePlayerEnemyCollision
  rw [if_pos h]
  simp [Scene.emit, scoreOf]

theorem handle_hit (player : PlayerBody) (enemy : EnemyObj) (s : Scene)
    (h : ¬ (player.velocityY > 0 ∧ player.y < enemy.y - 10))
    (hi : player.isInvincible = false) :
    handlePlayerEnemyCollision player enemy s =
      { s with
        calls := s.calls ++
          [.playerTakeDamage player,
           .playerSetVelocityX player (if player.x < enemy.x then -200 else 200),
           .playerSetVelocityY player (-200)] } := by
  unfold handlePlayerEnemyCollision
  rw [if_neg h]
  by_cases hx : player.x < enemy.x <;> simp [Scene.emit, hi, hx]

theorem handle_invincible (player : PlayerBody) (enemy : EnemyObj) (s : Scene)
    (h : ¬ (player.velocityY > 0 ∧ player.y < enemy.y - 10))
    (hi : player.isInvincible = true) :
    handlePlayerEnemyCollision player enemy s = s := by
  unfold handlePlayerEnemyCollision
  rw [if_neg h]
  simp [hi]

/-- C1, as the claim states it, fails.  (i) From the score `2^53 - 1` a stomp
stores `2^53 + 100`, not the sum `2^53 + 99`.  (ii) For a player at
`y = 2^56 + 16` falling onto an enemy at `y = 2^56 + 32` the condition of the
claim holds with the exact difference, but `enemy.y - 10` rounds to
`2^56 + 16`, the code takes the other branch and the score stays 250.
(iii) A `NaN` score is falsy: the stomp stores 100. -/
theorem stomp_score_is_rounded :
    (exactFromAbove samplePlayer sampleEnemy ∧
      (Number.ofInt 9007199254740991).representable ∧
      (handlePlayerEnemyCollision samplePlayer sampleEnemy
          (sceneWithScore (Number.ofInt 9007199254740991))).registry "score" =
        some (Number.ofInt 9007199254741092) ∧
      Number.exactAdd (Number.ofInt 9007199254740991) 100 =
        Number.ofInt 9007199254741091) ∧
    (exactFromAbove highPlayer highEnemy ∧
      highPlayer.y.representable ∧ highEnemy.y.representable ∧
      (handlePlayerEnemyCollision highPlayer highEnemy
          (sceneWithScore 250)).registry "score" = some 250 ∧
      Number.exactAdd 250 100 = 350) ∧
    ((handlePlayerEnemyCollision samplePlayer sampleEnemy
          (sceneWithScore .nan)).registry "score" = some 100 ∧
      Number.exactAdd .nan 100 = .nan) :=
  ⟨⟨by decide, by decide, by decide, by decide⟩,
   ⟨by decide, by decide, by decide, by decide, by decide⟩,
   ⟨by decide, by decide⟩⟩

/-- C1, amended: when the test of the code holds, `velocity.y > 0` and
`player.y < enemy.y - 10` with the difference rounded to a double, registry
`score` after the call is the double sum of the score before (an unset, zero
or `NaN` score counting as 0) and 100.  That is the exact sum whenever the
exact sum is a double, in particular for an integer score `n` with
`|n + 100| ≤ 2^53`. -/
theorem stomp_adds_100_to_score (player : PlayerBody) (enemy : EnemyObj)
    (s : Scene) (hv : player.velocityY > 0) (hy : player.y < enemy.y - 10) :
    (handlePlayerEnemyCollision player enemy s).registry "score" =
      some (scoreOf s + 100) ∧
    ((Number.exactAdd (scoreOf s) 100).representable →
      (handlePlayerEnemyCollision player enemy s).registry "score" =
        some (Number.exactAdd (scoreOf s) 100)) ∧
    (∀ n : Int, scoreOf s = Number.ofInt n → |n + 100| ≤ 2 ^ 53 →
      (handlePlayerEnemyCollision player enemy s).registry "score" =
        some (Number.ofInt (n + 100))) := by
  have key : (handlePlayerEnemyCollision player enemy s).registry "score" =
      some (scoreOf s + 100) := by
    rw [handle_stomp player enemy s ⟨hv, hy⟩]
    exact set_same s.registry "score" _
  refine ⟨key, ?_, ?_⟩
  · intro hr
    rw [key, Number.add_eq_exactAdd _ _ hr]
  · intro n hn hb
    have h1 : (n + 100).natAbs ≤ 2 ^ 53 := by
      have := abs_le.mp hb
      norm_num at this ⊢
      omega
    rw [key, hn]
    exact congrArg some (Number.ofInt_add n 100 h1)

theorem stomp_adds_100_to_score_witness :
    samplePlayer.velocityY > 0 ∧ samplePlayer.y < sampleEnemy.y - 10 ∧
    (handlePlayerEnemyCollision samplePlayer sampleEnemy
        (sceneWithScore 250)).registry "score" = some (Number.ofInt 350) :=
  ⟨by decide, by decide,
   (stomp_adds_100_to_score samplePlayer sampleEnemy (sceneWithScore 250)
      (by decide) (by decide)).2.2 250 (by decide) (by norm_num)⟩

/-- C8, as the claim states it, fails: for a player falling (`velocity.y = 5`)
at `y = 2^56 + 16` onto an enemy at `y = 2^56 + 32`, both doubles, the
condition holds with the exact difference (`2^56 + 16 < 2^56 + 22`), but the
code computes `enemy.y - 10` as the double `2^56 + 16`, finds the test false,
and damages the player instead of the enemy. -/
theorem stomp_test_is_rounded :
    exactFromAbove highPlayer highEnemy ∧
    highPlayer.y.representable ∧ highEnemy.y.representable ∧
    highEnemy.y - 10 = highPlayer.y ∧
    Call.enemyTakeDamage highEnemy ∉
      (handlePlayerEnemyCollision highPlayer highEnemy Scene.initial).calls ∧
    Call.playerTakeDamage highPlayer ∈
      (handlePlayerEnemyCollision highPlayer highEnemy Scene.initial).calls :=
  ⟨by decide, by decide, by decide, by decide, by decide, by decide⟩

/-- C8, amended: `handlePlayerEnemyCollision` calls `enemy.takeDamage` if and
only if the test of the code holds, `player.body.velocity.y > 0` and
`player.y < enemy.y - 10` with the difference rounded to a double; in that case
the calls it makes are exactly `enemy.takeDamage()` followed by
`player.setVelocityY(-300)` (so the enemy is damaged once and the player is
not); in every other case, in particular for `velocity.y = 0` and for
`player.y = enemy.y - 10`, no enemy is damaged.  The test is the exact
comparison whenever the exact difference is a double, in particular for an
integer `enemy.y = n` with `|n - 10| ≤ 2^53`; for a player whose `y` is a
double, the test implies the exact comparison. -/
theorem enemy_damaged_iff_jump_from_above (player : PlayerBody)
    (enemy : EnemyObj) (s : Scene) :
    (∃ added : List Call,
      (handlePlayerEnemyCollision player enemy s).calls = s.calls ++ added ∧
      (Call.enemyTakeDamage enemy ∈ added ↔
        (player.velocityY > 0 ∧ player.y < enemy.y - 10)) ∧
      ((player.velocityY > 0 ∧ player.y < enemy.y - 10) →
        added = [.enemyTakeDamage enemy, .playerSetVelocityY player (-300)]) ∧
      (¬ (player.velocityY > 0 ∧ player.y < enemy.y - 10) →
        ∀ e, Call.enemyTakeDamage e ∉ added) ∧
      (player.velocityY = 0 → ∀ e, Call.enemyTakeDamage e ∉ added) ∧
      (player.y = enemy.y - 10 → ∀ e, Call.enemyTakeDamage e ∉ added)) ∧
    ((Number.exactSub enemy.y 10).representable →
      ((player.velocityY > 0 ∧ player.y < enemy.y - 10) ↔
        exactFromAbove player enemy)) ∧
    (∀ n : Int, enemy.y = Number.ofInt n → |n - 10| ≤ 2 ^ 53 →
      ((player.velocityY > 0 ∧ player.y < enemy.y - 10) ↔
        (player.velocityY > 0 ∧ player.y < Number.ofInt (n - 10)))) ∧
    (player.y.representable →
      (player.velocityY > 0 ∧ player.y < enemy.y - 10) →
      exactFromAbove player enemy) := by
  refine ⟨?_, ?_, ?_, test_implies_exact player enemy⟩
  · by_cases h : player.velocityY > 0 ∧ player.y < enemy.y - 10
    · refine ⟨[.enemyTakeDamage enemy, .playerSetVelocityY player (-300)],
        ?_, ?_, ?_, ?_, ?_, ?_⟩
      · rw [handle_stomp player enemy s h]
      · simp [h]
      · intro _; rfl
      · intro hn; exact absurd h hn
      · intro h0
        have h1 := h.1
        rw [h0] at h1
        exact absurd h1 (Number.lt_irrefl 0)
      · intro h0
        have h2 := h.2
        rw [h0] at h2
        exact absurd h2 (Number.lt_irrefl _)
    · by_cases hi : player.isInvincible = true
      · refine ⟨[], ?_, ?_, ?_, ?_, ?_, ?_⟩
        · rw [handle_invincible player enemy s h hi]; simp
        · simp [h]
        · intro hp; exact absurd hp h
        · intro _ e; simp
        · intro _ e; simp
        · intro _ e; simp
      · have hf : player.isInvincible = false := by
          cases hb : player.isInvincible
          · rfl
          · exact absurd hb hi
        refine ⟨[.playerTakeDamage player,
          .playerSetVelocityX player (if player.x < enemy.x then -200 else 200),
          .playerSetVelocityY player (-200)], ?_, ?_, ?_, ?_, ?_, ?_⟩
        · rw [handle_hit player enemy s h hf]
        · simp [h]
        · intro hp; exact absurd hp h
        · intro _ e; simp
        · intro _ e; simp
        · intro _ e; simp
  · intro hr
    unfold exactFromAbove
    rw [Number.sub_eq_exactSub enemy.y 10 hr]
  · intro n hn hb
    have h1 : (n - 10).natAbs ≤ 2 ^ 53 := by
      have := abs_le.mp hb
      norm_num at this ⊢
      omega
    have e : enemy.y - 10 = Number.ofInt (n - 10) := by
      rw [hn]
      exact Number.ofInt_sub n 10 h1
    rw [e]

theorem enemy_damaged_iff_jump_from_above_witness :
    (Number.exactSub sampleEnemy.y 10).representable ∧
    ((samplePlayer.velocityY > 0 ∧ samplePlayer.y < sampleEnemy.y - 10) ↔
      exactFromAbove samplePlayer sampleEnemy) :=
  ⟨by decide,
   (enemy_damaged_iff_jump_from_above samplePlayer sampleEnemy
      Scene.initial).2.1 (by decide)⟩

/-- C9: in a collision that is not a jump from above (the test
`player.body.velocity.y > 0 && player.y < enemy.y - 10` of the code is false,
which is the case in particular when `player.y` is a double and the condition
fails with the exact difference), an invincible player leaves the scene
untouched (no call is made), and a player that is not invincible receives
exactly `takeDamage()`, then `setVelocityX(-200)` when `player.x < enemy.x` and
`setVelocityX(200)` otherwise, then `setVelocityY(-200)`. -/
theorem enemy_hits_player_unless_invincible (player : PlayerBody)
    (enemy : EnemyObj) (s : Scene)
    (h : ¬ (player.velocityY > 0 ∧ player.y < enemy.y - 10) ∨
      (player.y.representable ∧ ¬ exactFromAbove player enemy)) :
    (player.isInvincible = true →
      handlePlayerEnemyCollision player enemy s = s) ∧
    (player.isInvincible = false →
      handlePlayerEnemyCollision player enemy s =
        { s with calls := s.calls ++
          [.playerTakeDamage player,
           .playerSetVelocityX player (if player.x < enemy.x then -200 else 200),
           .playerSetVelocityY player (-200)] }) ∧
    (player.isInvincible = false → player.x = enemy.x →
      Call.playerSetVelocityX player 200 ∈
        (handlePlayerEnemyCollision player enemy s).calls) := by
  have hc : ¬ (player.velocityY > 0 ∧ player.y < enemy.y - 10) := by
    rcases h with h | ⟨hr, hne⟩
    · exact h
    · exact fun ht => hne (test_implies_exact player enemy hr ht)
  refine ⟨fun hi => handle_invincible player enemy s hc hi,
    fun hi => handle_hit player enemy s hc hi, ?_⟩
  intro hi hx
  rw [handle_hit player enemy s hc hi, hx, if_neg (Number.lt_irrefl enemy.x)]
  simp

theorem enemy_hits_player_unless_invincible_witness :
    ¬ (sampleWalker.velocityY > 0 ∧ sampleWalker.y < sampleEnemy.y - 10) ∧
    sampleWalker.isInvincible = false ∧
    handlePlayerEnemyCollision sampleWalker sampleEnemy Scene.initial =
      { Scene.initial with calls :=
        [.playerTakeDamage sampleWalker,
         .playerSetVelocityX sampleWalker (-200),
         .playerSetVelocityY sampleWalker (-200)] } :=
  ⟨by decide, rfl,
   (enemy_hits_player_unless_invincible sampleWalker sampleEnemy Scene.initial
      (Or.inl (by decide))).2.1 rfl⟩

/-! ## `create` when the level fails to load -/

/-- C2: when `LevelManager.loadLevel` returns a falsy value, `create` returns
after logging the error: the only calls made are the `loadLevel` call itself and
`console.error('Failed to load level!')` (no constructor, collider, overlap
or keyboard registration), and every scene field and the registry are left
as they were. -/
theorem create_aborts_when_level_fails (s : Scene) :
    ∃ s1 : Scene,
      create none s = .returned s1 ∧
      s1.calls = s.calls ++
        [.loadLevel "level1", .consoleError "Failed to load level!"] ∧
      s1.platforms = s.platforms ∧ s1.levelData = s.levelData ∧
      s1.player = s.player ∧ s1.enemies = s.enemies ∧
      s1.powerups = s.powerups ∧ s1.goal = s.goal ∧ s1.hud = s.hud ∧
      s1.levelCompleting = s.levelCompleting ∧ s1.registry = s.registry :=
  ⟨_, rfl, by simp [Scene.emit], rfl, rfl, rfl, rfl, rfl, rfl, rfl, rfl, rfl⟩

/-! ## `createEnemies` and `createPowerUps` -/

theorem newEnemy_known (d : EnemyData) (h : specKnownType d = true) :
    newEnemy d = some (specEnemyCtor d, specEnemy d) := by
  unfold specKnownType at h
  unfold newEnemy specEnemyCtor specEnemy EnemyObj.new
  by_cases h1 : d.type = "slime"
  · simp [h1]
  · have h2 : d.type = "flying" := by
      rcases of_decide_eq_true h with h3 | h3
      · exact absurd h3 h1
      · exact h3
    simp [h2]

theorem newEnemy_unknown (d : EnemyData) (h : specKnownType d = false) :
    newEnemy d = none := by
  unfold specKnownType at h
  have h0 := of_decide_eq_false h
  unfold newEnemy
  have h1 : ¬ d.type = "slime" := fun e => h0 (Or.inl e)
  have h2 : ¬ d.type = "flying" := fun e => h0 (Or.inr e)
  simp [h1, h2]

theorem createEnemies_some (data : List EnemyData) :
    ∀ (s : Scene) (group : List (Option EnemyObj)), s.enemies = some group →
      createEnemies data s = .returned
        { s with
          enemies := some
            (group ++ ((data.filter specKnownType).map specEnemy).map some),
          calls := s.calls ++ (data.filter specKnownType).map specEnemyCtor } := by
  induction data with
  | nil =>
    intro s group h
    cases s
    simp only at h
    simp [createEnemies, h]
  | cons d rest ih =>
    intro s group h
    cases hk : specKnownType d
    · rw [createEnemies, newEnemy_unknown d hk]
      simp only
      rw [ih s group h]
      simp [List.filter_cons, hk]
    · rw [createEnemies, newEnemy_known d hk]
      simp only
      have h1 : (s.emit (specEnemyCtor d)).enemies = some group := h
      rw [h1]
      simp only
      rw [ih _ (group ++ [some (specEnemy d)]) rfl]
      simp [List.filter_cons, hk, Scene.emit]

theorem createEnemies_frame (data : List EnemyData) :
    ∀ s : Scene, ∃ en cs,
      (createEnemies data s).scene = { s with enemies := en, calls := cs } := by
  induction data with
  | nil => intro s; exact ⟨s.enemies, s.calls, rfl⟩
  | cons d rest ih =>
    intro s
    rw [createEnemies]
    cases hn : newEnemy d with
    | none => exact ih s
    | some p =>
      obtain ⟨ctor, enemy⟩ := p
      simp only
      cases he : (s.emit ctor).enemies with
      | none => exact ⟨s.enemies, s.calls ++ [ctor], rfl⟩
      | some group =>
        simp only
        obtain ⟨en, cs, h⟩ := ih
          { s.emit ctor with enemies := some (group ++ [some enemy]) }
        exact ⟨en, cs, by rw [h]; rfl⟩

theorem createPowerUps_some (data : List PowerUpData) :
    ∀ (s : Scene) (group : List PowerUpObj), s.powerups = some group →
      createPowerUps data s = .returned
        { s with
          powerups := some
            (group ++ data.map fun d => (⟨d.x, d.y, d.type⟩ : PowerUpObj)),
          calls := s.calls ++ data.map fun d => Call.newPowerUp d.x d.y d.type } := by
  induction data with
  | nil =>
    intro s group h
    cases s
    simp only at h
    simp [createPowerUps, h]
  | cons d rest ih =>
    intro s group h
    rw [createPowerUps]
    simp only
    have h1 : (s.emit (.newPowerUp d.x d.y d.type)).powerups = some group := h
    rw [h1]
    simp only
    rw [ih _ (group ++ [⟨d.x, d.y, d.type⟩]) rfl]
    simp [Scene.emit]

theorem createPowerUps_frame (data : List PowerUpData) :
    ∀ s : Scene, ∃ pu cs,
      (createPowerUps data s).scene = { s with powerups := pu, calls := cs } := by
  induction data with
  | nil => intro s; exact ⟨s.powerups, s.calls, rfl⟩
  | cons d rest ih =>
    intro s
    rw [createPowerUps]
    simp only
    cases he : (s.emit (.newPowerUp d.x d.y d.type)).powerups with
    | none => exact ⟨s.powerups, s.calls ++ [Call.newPowerUp d.x d.y d.type], rfl⟩
    | some group =>
      simp only
      obtain ⟨pu, cs, h⟩ := ih
        { s.emit (.newPowerUp d.x d.y d.type) with
          powerups := some (group ++ [⟨d.x, d.y, d.type⟩]) }
      exact ⟨pu, cs, by rw [h]; rfl⟩

/-- C5, as the claim states it, fails: an entry whose type is neither `slime`
nor `flying` adds no enemy, so for the one-entry list `[boss at (5, 7)]` the
group after the call is not the group before followed by one enemy per
entry. -/
theorem createEnemies_unknown_type_adds_nothing :
    ¬ ∃ built : List EnemyObj,
      built.length = [(⟨"boss", 5, 7⟩ : EnemyData)].length ∧
      (createEnemies [⟨"boss", 5, 7⟩] sceneWithGroup).scene.enemies =
        some ([] ++ built.map some) := by
  rintro ⟨built, hlen, hgroup⟩
  have h : (createEnemies [⟨"boss", 5, 7⟩] sceneWithGroup).scene.enemies =
      some [] := by
    rw [createEnemies_some _ sceneWithGroup [] rfl]
    rfl
  rw [h] at hgroup
  cases built with
  | nil => simp at hlen
  | cons b bs => simp at hgroup

/-- C5, amended: when the enemies group exists, `createEnemies` returns, and
the group afterwards is the group before followed by one enemy per entry whose
type is `slime` or `flying`, in list order, a Goomba for `slime` and a
FlyingEnemy for `flying`, each built at the entry's `(x, y)`; entries of any
other type add nothing.  The number of enemies added is the number of entries
of these two types, which is the length of the list when every entry has one
of them. -/
theorem createEnemies_adds_known_entries (enemiesData : List EnemyData)
    (s : Scene) (group : List (Option EnemyObj)) (h : s.enemies = some group) :
    ∃ (s1 : Scene) (built : List EnemyObj),
      createEnemies enemiesData s = .returned s1 ∧
      s1.enemies = some (group ++ built.map some) ∧
      built = (enemiesData.filter specKnownType).map specEnemy ∧
      built.length = (enemiesData.filter specKnownType).length ∧
      ((∀ d ∈ enemiesData, d.type = "slime" ∨ d.type = "flying") →
        built.length = enemiesData.length ∧
        built = enemiesData.map specEnemy) := by
  refine ⟨_, (enemiesData.filter specKnownType).map specEnemy,
    createEnemies_some enemiesData s group h, rfl, rfl, by simp, ?_⟩
  intro hall
  have hf : enemiesData.filter specKnownType = enemiesData := by
    rw [List.filter_eq_self]
    intro d hd
    exact decide_eq_true (hall d hd)
  rw [hf]
  simp

theorem createEnemies_adds_known_entries_witness :
    sceneWithGroup.enemies = some [] ∧
    ∃ (s1 : Scene) (built : List EnemyObj),
      createEnemies [⟨"slime", 1, 2⟩, ⟨"boss", 5, 7⟩, ⟨"flying", 3, 4⟩]
        sceneWithGroup = .returned s1 ∧
      s1.enemies = some ([] ++ built.map some) ∧
      built = (List.filter specKnownType
        [⟨"slime", 1, 2⟩, ⟨"boss", 5, 7⟩, ⟨"flying", 3, 4⟩]).map specEnemy ∧
      built.length = (List.filter specKnownType
        [⟨"slime", 1, 2⟩, ⟨"boss", 5, 7⟩, ⟨"flying", 3, 4⟩]).length ∧
      ((∀ d ∈ [(⟨"slime", 1, 2⟩ : EnemyData), ⟨"boss", 5, 7⟩, ⟨"flying", 3, 4⟩],
          d.type = "slime" ∨ d.type = "flying") →
        built.length =
          [(⟨"slime", 1, 2⟩ : EnemyData), ⟨"boss", 5, 7⟩, ⟨"flying", 3, 4⟩].length ∧
        built = [(⟨"slime", 1, 2⟩ : EnemyData), ⟨"boss", 5, 7⟩,
          ⟨"flying", 3, 4⟩].map specEnemy) :=
  ⟨rfl, createEnemies_adds_known_entries _ sceneWithGroup [] rfl⟩

/-! ## `update` -/

theorem foldl_updateEnemy (group : List (Option EnemyObj)) :
    ∀ s : Scene, group.foldl updateEnemy s =
      { s with calls := s.calls ++ (updatable group).map Call.enemyUpdate } := by
  induction group with
  | nil => intro s; cases s; simp [updatable]
  | cons x rest ih =>
    intro s
    rw [List.foldl_cons, ih]
    cases x with
    | none => simp [updateEnemy, updatable]
    | some e =>
      cases he : e.hasUpdate
      · simp [updateEnemy, updatable, he]
      · simp [updateEnemy, updatable, he, Scene.emit]

theorem update_some (time delta : Number) (s : Scene) (p : PlayerObj) (h : HudObj)
    (group : List (Option EnemyObj)) (hp : s.player = some p)
    (hh : s.hud = some h) (hg : s.enemies = some group) :
    update time delta s = .returned
      { s with calls := s.calls ++
          [.playerUpdate p time delta, .hudUpdate h p] ++
          (updatable group).map Call.enemyUpdate } := by
  have h1 : (s.emit (.playerUpdate p time delta)).hud = some h := hh
  have e1 : updatePlayer time delta s =
      (s.emit (.playerUpdate p time delta)).emit (.hudUpdate h p) := by
    unfold updatePlayer
    rw [hp]
    simp only
    rw [h1]
  have h2 : (updatePlayer time delta s).enemies = some group := by
    rw [e1]; exact hg
  unfold update updateEnemies
  rw [h2]
  simp only
  rw [foldl_updateEnemy, e1]
  simp [Scene.emit]

theorem sceneStarts_append (a b : List Call) :
    sceneStarts (a ++ b) = sceneStarts a ++ sceneStarts b := by
  induction a with
  | nil => rfl
  | cons c rest ih => cases c <;> simp [sceneStarts, ih]

theorem sceneStarts_enemyUpdates (l : List EnemyObj) :
    sceneStarts (l.map Call.enemyUpdate) = [] := by
  induction l with
  | nil => rfl
  | cons e rest ih => simp [sceneStarts, ih]

theorem updatePlayer_frame (time delta : Number) (s : Scene) :
    ∃ pre : List Call,
      updatePlayer time delta s = { s with calls := s.calls ++ pre } ∧
      sceneStarts pre = [] := by
  rcases Option.eq_none_or_eq_some s.player with hp | ⟨p, hp⟩
  · have e : updatePlayer time delta s = s := by
      unfold updatePlayer; rw [hp]
    exact ⟨[], by rw [e]; cases s; simp, rfl⟩
  · rcases Option.eq_none_or_eq_some (s.emit (.playerUpdate p time delta)).hud
      with hh | ⟨h, hh⟩
    · have e : updatePlayer time delta s =
          s.emit (.playerUpdate p time delta) := by
        unfold updatePlayer; rw [hp]; simp only; rw [hh]
      exact ⟨[Call.playerUpdate p time delta], by rw [e]; rfl, rfl⟩
    · have e : updatePlayer time delta s =
          (s.emit (.playerUpdate p time delta)).emit (.hudUpdate h p) := by
        unfold updatePlayer; rw [hp]; simp only; rw [hh]
      exact ⟨[Call.playerUpdate p time delta, Call.hudUpdate h p],
        by rw [e]; simp [Scene.emit], rfl⟩

theorem updateEnemies_frame (s : Scene) :
    ∃ added : List Call,
      (updateEnemies s).scene = { s with calls := s.calls ++ added } ∧
      sceneStarts added = [] := by
  rcases Option.eq_none_or_eq_some s.enemies with hg | ⟨group, hg⟩
  · have e : updateEnemies s = .threw s := by
      unfold updateEnemies; rw [hg]
    exact ⟨[], by rw [e]; cases s; simp [Outcome.scene], rfl⟩
  · have e : updateEnemies s = .returned (group.foldl updateEnemy s) := by
      unfold updateEnemies; rw [hg]
    exact ⟨(updatable group).map Call.enemyUpdate,
      by rw [e, foldl_updateEnemy]; rfl, sceneStarts_enemyUpdates _⟩

theorem update_frame (time delta : Number) (s : Scene) :
    ∃ added : List Call,
      (update time delta s).scene = { s with calls := s.calls ++ added } ∧
      sceneStarts added = [] := by
  obtain ⟨pre, h1, hpre⟩ := updatePlayer_frame time delta s
  obtain ⟨post, h2, hpost⟩ := updateEnemies_frame (updatePlayer time delta s)
  refine ⟨pre ++ post, ?_, ?_⟩
  · unfold update
    rw [h2, h1]
    simp
  · rw [sceneStarts_append, hpre, hpost]; rfl

/-! ## A successful `create` -/

theorem create_some (level : Level) (s : Scene) :
    ∃ s1 : Scene,
      create (some level) s = .returned s1 ∧
      s1.player = some ⟨level.playerStart.x, level.playerStart.y⟩ ∧
      s1.hud = some ⟨⟩ ∧
      s1.enemies = some
        (((level.levelData.enemies.filter specKnownType).map specEnemy).map
          some) ∧
      s1.levelCompleting = some false ∧
      s1.registry = s.registry := by
  unfold create
  simp only
  rw [createEnemies_some _ _ [] rfl]
  simp only [Outcome.andThen]
  rw [createPowerUps_some _ _ [] rfl]
  simp only
  exact ⟨_, rfl, rfl, rfl, rfl, rfl, rfl⟩

/-! ## Events after `create` -/

theorem handle_frame (player : PlayerBody) (enemy : EnemyObj) (s : Scene) :
    ∃ (reg : Registry) (added : List Call),
      handlePlayerEnemyCollision player enemy s =
        { s with registry := reg, calls := s.calls ++ added } ∧
      sceneStarts added = [] := by
  by_cases h : player.velocityY > 0 ∧ player.y < enemy.y - 10
  · exact ⟨_, _, handle_stomp player enemy s h, rfl⟩
  · cases hi : player.isInvincible
    · exact ⟨s.registry, _, handle_hit player enemy s h hi, rfl⟩
    · refine ⟨s.registry, [], ?_, rfl⟩
      rw [handle_invincible player enemy s h hi]
      cases s; simp

theorem goalOverlap_completing (s : Scene) (h : truthy s.levelCompleting = true) :
    goalOverlap s = s := by
  unfold goalOverlap
  simp [h]

theorem goalOverlap_first (s : Scene) (h : truthy s.levelCompleting = false) :
    goalOverlap s = levelComplete s := by
  unfold goalOverlap
  simp [h]

theorem event_frame (e : Event) (s : Scene) :
    ∃ (lc : Option Bool) (reg : Registry) (cs : List Call),
      (e.toOp.run s).scene =
        { s with levelCompleting := lc, registry := reg, calls := cs } := by
  cases e with
  | frame time delta =>
    obtain ⟨added, h, _⟩ := update_frame time delta s
    exact ⟨s.levelCompleting, s.registry, s.calls ++ added, h⟩
  | enemyOverlap p en =>
    obtain ⟨reg, added, h, _⟩ := handle_frame p en s
    exact ⟨s.levelCompleting, reg, s.calls ++ added, h⟩
  | powerUpOverlap p u => exact ⟨s.levelCompleting, s.registry, _, rfl⟩
  | keydownESC => exact ⟨s.levelCompleting, s.registry, _, rfl⟩
  | goalOverlap =>
    cases h : truthy s.levelCompleting
    · exact ⟨some true, s.registry.set "currentLevel" 2,
        s.calls ++ [.sceneStart .LEVEL2],
        by show goalOverlap s = _; rw [goalOverlap_first s h]; rfl⟩
    · exact ⟨s.levelCompleting, s.registry, s.calls,
        by show goalOverlap s = _; rw [goalOverlap_completing s h]⟩

theorem runEvents_cons (e : Event) (rest : List Event) (s : Scene) :
    runEvents (e :: rest) s = runEvents rest (e.toOp.run s).scene := rfl

theorem runEvents_frame (events : List Event) :
    ∀ s : Scene, ∃ (lc : Option Bool) (reg : Registry) (cs : List Call),
      runEvents events s =
        { s with levelCompleting := lc, registry := reg, calls := cs } := by
  induction events with
  | nil => intro s; exact ⟨s.levelCompleting, s.registry, s.calls, rfl⟩
  | cons e rest ih =>
    intro s
    obtain ⟨lc1, reg1, cs1, h1⟩ := event_frame e s
    obtain ⟨lc2, reg2, cs2, h2⟩ := ih (e.toOp.run s).scene
    exact ⟨lc2, reg2, cs2, by rw [runEvents_cons, h2, h1]⟩

theorem event_step (e : Event) (s : Scene) :
    sceneStarts (e.toOp.run s).scene.calls =
      sceneStarts s.calls ++ expectedStarts (truthy s.levelCompleting) [e] ∧
    ∀ rest, expectedStarts (truthy s.levelCompleting) (e :: rest) =
      expectedStarts (truthy s.levelCompleting) [e] ++
        expectedStarts (truthy (e.toOp.run s).scene.levelCompleting) rest := by
  cases e with
  | frame time delta =>
    obtain ⟨added, h, hs⟩ := update_frame time delta s
    have h1 : (Event.toOp (.frame time delta)).run s = update time delta s := rfl
    rw [h1, h]
    constructor
    · show sceneStarts (s.calls ++ added) = _
      rw [sceneStarts_append, hs]; rfl
    · intro rest; rfl
  | enemyOverlap p en =>
    obtain ⟨reg, added, h, hs⟩ := handle_frame p en s
    have h1 : ((Event.toOp (.enemyOverlap p en)).run s).scene =
        handlePlayerEnemyCollision p en s := rfl
    rw [h1, h]
    constructor
    · show sceneStarts (s.calls ++ added) = _
      rw [sceneStarts_append, hs]; rfl
    · intro rest; rfl
  | powerUpOverlap p u =>
    constructor
    · show sceneStarts (s.calls ++ [.powerupCollect u p]) = _
      rw [sceneStarts_append]; rfl
    · intro rest; rfl
  | keydownESC =>
    constructor
    · show sceneStarts (s.calls ++ [.sceneStart .MENU]) = _
      rw [sceneStarts_append]; rfl
    · intro rest; rfl
  | goalOverlap =>
    have h1 : ((Event.toOp .goalOverlap).run s).scene = goalOverlap s := rfl
    rw [h1]
    cases h : truthy s.levelCompleting
    · rw [goalOverlap_first s h]
      constructor
      · show sceneStarts (s.calls ++ [.sceneStart .LEVEL2]) = _
        rw [sceneStarts_append]; rfl
      · intro rest; rfl
    · rw [goalOverlap_completing s h, h]
      constructor
      · simp [expectedStarts]
      · intro rest; simp [expectedStarts]

theorem sceneStarts_runEvents (events : List Event) :
    ∀ s : Scene, sceneStarts (runEvents events s).calls =
      sceneStarts s.calls ++ expectedStarts (truthy s.levelCompleting) events := by
  induction events with
  | nil => intro s; simp [runEvents, runOps, expectedStarts]
  | cons e rest ih =>
    intro s
    obtain ⟨h1, h2⟩ := event_step e s
    rw [runEvents_cons, ih, h1, h2 rest, List.append_assoc]

theorem expectedStarts_no_trigger (events : List Event) :
    ∀ c : Bool, (∀ e ∈ events, e.isTrigger = false) →
      expectedStarts c events = [] := by
  induction events with
  | nil => intro c _; rfl
  | cons e rest ih =>
    intro c h
    have he := h e (List.mem_cons_self _ _)
    have hr := ih c fun x hx => h x (List.mem_cons_of_mem _ hx)
    cases e with
    | frame time delta => exact hr
    | enemyOverlap p en => exact hr
    | powerUpOverlap p u => exact hr
    | keydownESC => simp [Event.isTrigger] at he
    | goalOverlap => simp [Event.isTrigger] at he

theorem expectedStarts_targets (events : List Event) :
    ∀ c : Bool, ∀ key ∈ expectedStarts c events,
      key = SceneKey.MENU ∨ key = SceneKey.LEVEL2 := by
  induction events with
  | nil => intro c key h; simp [expectedStarts] at h
  | cons e rest ih =>
    intro c key h
    cases e with
    | frame time delta => exact ih c key h
    | enemyOverlap p en => exact ih c key h
    | powerUpOverlap p u => exact ih c key h
    | keydownESC =>
      simp only [expectedStarts, List.mem_cons] at h
      rcases h with h | h
      · exact Or.inl h
      · exact ih c key h
    | goalOverlap =>
      cases c
      · simp only [expectedStarts, List.mem_cons] at h
        simp only [Bool.false_eq_true, if_false, List.mem_cons] at h
        rcases h with h | h
        · exact Or.inr h
        · exact ih true key h
      · simp only [expectedStarts, if_true] at h
        exact ih true key h

/-- C3: after a successful `create`, over every sequence of events (update
frames, player-enemy overlaps, player-power-up overlaps, ESC keydowns,
player-goal overlaps) the `scene.start` calls made are exactly one
`scene.start(SCENES.MENU)` per ESC keydown and one `scene.start(SCENES.LEVEL2)`
for a player-goal overlap that finds the level not yet completing, in event
order; every target is `MENU` or `LEVEL2`, and a sequence without ESC keydown
and goal overlap starts no scene. -/
theorem scene_starts_only_on_esc_or_goal (level : Level) (s0 : Scene)
    (events : List Event) :
    sceneStarts (runEvents events (create (some level) s0).scene).calls =
      sceneStarts (create (some level) s0).scene.calls ++
        expectedStarts false events ∧
    (∀ key ∈ expectedStarts false events,
      key = SceneKey.MENU ∨ key = SceneKey.LEVEL2) ∧
    ((∀ e ∈ events, e.isTrigger = false) →
      sceneStarts (runEvents events (create (some level) s0).scene).calls =
        sceneStarts (create (some level) s0).scene.calls) := by
  obtain ⟨s1, h1, _, _, _, hlc, _⟩ := create_some level s0
  have hs : (create (some level) s0).scene = s1 := by rw [h1]; rfl
  have key : sceneStarts (runEvents events s1).calls =
      sceneStarts s1.calls ++ expectedStarts false events := by
    have k := sceneStarts_runEvents events s1
    rw [hlc] at k
    exact k
  rw [hs]
  refine ⟨key, expectedStarts_targets events false, ?_⟩
  intro hno
  rw [key, expectedStarts_no_trigger events false hno, List.append_nil]

theorem scene_starts_only_on_esc_or_goal_witness :
    sceneStarts (runEvents
        [.frame 16 16, .enemyOverlap samplePlayer sampleEnemy, .goalOverlap,
          .goalOverlap, .keydownESC]
        (create (some sampleLevel) Scene.initial).scene).calls =
      sceneStarts (create (some sampleLevel) Scene.initial).scene.calls ++
        [.LEVEL2, .MENU] :=
  (scene_starts_only_on_esc_or_goal sampleLevel Scene.initial
    [.frame 16 16, .enemyOverlap samplePlayer sampleEnemy, .goalOverlap,
      .goalOverlap, .keydownESC]).1

/-- C6: in every scene state reached from a successful `create` by any
sequence of events, `update(time, delta)` returns and makes exactly these
calls, in this order: `player.update(time, delta)` on the created player,
`hud.update(player)` on the created HUD, then `update()` on each member of the
enemies group that has an update method, in group order; no field of the scene
other than the call log changes. -/
theorem update_forwards_frame (level : Level) (s0 : Scene)
    (events : List Event) (time delta : Number) :
    ∃ group : List (Option EnemyObj),
      (runEvents events (create (some level) s0).scene).enemies = some group ∧
      (runEvents events (create (some level) s0).scene).player =
        some ⟨level.playerStart.x, level.playerStart.y⟩ ∧
      (runEvents events (create (some level) s0).scene).hud = some ⟨⟩ ∧
      update time delta (runEvents events (create (some level) s0).scene) =
        .returned
          { runEvents events (create (some level) s0).scene with
            calls := (runEvents events (create (some level) s0).scene).calls ++
              [.playerUpdate ⟨level.playerStart.x, level.playerStart.y⟩ time delta,
               .hudUpdate ⟨⟩ ⟨level.playerStart.x, level.playerStart.y⟩] ++
              (updatable group).map Call.enemyUpdate } := by
  obtain ⟨s1, h1, hp, hh, hg, _, _⟩ := create_some level s0
  have hs : (create (some level) s0).scene = s1 := by rw [h1]; rfl
  obtain ⟨lc, reg, cs, hr⟩ := runEvents_frame events s1
  rw [hs]
  have hp2 : (runEvents events s1).player =
      some ⟨level.playerStart.x, level.playerStart.y⟩ := by rw [hr]; exact hp
  have hh2 : (runEvents events s1).hud = some ⟨⟩ := by rw [hr]; exact hh
  have hg2 : (runEvents events s1).enemies = some
      (((level.levelData.enemies.filter specKnownType).map specEnemy).map
        some) := by rw [hr]; exact hg
  exact ⟨_, hg2, hp2, hh2, update_some time delta _ _ _ _ hp2 hh2 hg2⟩

/-! ## Arbitrary operations -/

theorem runOps_cons (op : Op) (rest : List Op) (s : Scene) :
    runOps (op :: rest) s = runOps rest (op.run s).scene := rfl

theorem score_key_ne : ("score" : String) ≠ "currentLevel" := by decide

theorem op_score (op : Op) (s : Scene) :
    (op.run s).scene.registry "score" =
      if op.isStomp = true then some (scoreOf s + 100) else s.registry "score" := by
  cases op with
  | create level =>
    cases level with
    | none => rfl
    | some level =>
      obtain ⟨s1, h1, _, _, _, _, hreg⟩ := create_some level s
      show (create (some level) s).scene.registry "score" = s.registry "score"
      rw [h1]
      show s1.registry "score" = _
      rw [hreg]
  | update time delta =>
    obtain ⟨added, h, _⟩ := update_frame time delta s
    show (update time delta s).scene.registry "score" = s.registry "score"
    rw [h]
  | createEnemies d =>
    obtain ⟨en, cs, h⟩ := createEnemies_frame d s
    show (createEnemies d s).scene.registry "score" = s.registry "score"
    rw [h]
  | createPowerUps d =>
    obtain ⟨pu, cs, h⟩ := createPowerUps_frame d s
    show (createPowerUps d s).scene.registry "score" = s.registry "score"
    rw [h]
  | handlePlayerPowerUpCollision p u => rfl
  | handlePlayerEnemyCollision p e =>
    show (handlePlayerEnemyCollision p e s).registry "score" = _
    by_cases h : p.velocityY > 0 ∧ p.y < e.y - 10
    · have hs : Op.isStomp (.handlePlayerEnemyCollision p e) = true := by
        simp [Op.isStomp, h]
      rw [if_pos hs, handle_stomp p e s h]
      exact set_same s.registry "score" _
    · have hs : ¬ Op.isStomp (.handlePlayerEnemyCollision p e) = true := by
        simp only [Op.isStomp, decide_eq_true_eq]
        exact h
      rw [if_neg hs]
      cases hi : p.isInvincible
      · rw [handle_hit p e s h hi]
      · rw [handle_invincible p e s h hi]
  | createGoal g => rfl
  | goalOverlap =>
    show (goalOverlap s).registry "score" = s.registry "score"
    cases h : truthy s.levelCompleting
    · rw [goalOverlap_first s h]
      exact set_other s.registry "currentLevel" "score" 2 score_key_ne
    · rw [goalOverlap_completing s h]
  | levelComplete =>
    exact set_other s.registry "currentLevel" "score" 2 score_key_ne
  | keydownESC => rfl

theorem runOps_score (ops : List Op) :
    ∀ s : Scene, scoreOf (runOps ops s) =
      (fun x : Number => x + 100)^[ops.countP Op.isStomp] (scoreOf s) := by
  induction ops with
  | nil => intro s; rfl
  | cons op rest ih =>
    intro s
    rw [runOps_cons, ih]
    have h := op_score op s
    by_cases hb : op.isStomp = true
    · have hs : scoreOf (op.run s).scene = scoreOf s + 100 := by
        show orZero ((op.run s).scene.registry "score") = _
        rw [h, if_pos hb]
        exact orZero_add_100 (s.registry "score")
      rw [hs, List.countP_cons_of_pos _ _ hb, Function.iterate_succ_apply]
    · have hs : scoreOf (op.run s).scene = scoreOf s := by
        show orZero ((op.run s).scene.registry "score") = _
        rw [h, if_neg hb]
        rfl
      rw [hs, List.countP_cons_of_neg _ _ hb]

theorem runOps_no_stomp (ops : List Op) :
    ∀ s : Scene, ops.countP Op.isStomp = 0 →
      (runOps ops s).registry "score" = s.registry "score" := by
  induction ops with
  | nil => intro s _; rfl
  | cons op rest ih =>
    intro s h
    rw [List.countP_cons] at h
    have hb : ¬ op.isStomp = true := by
      intro hb
      simp [hb] at h
    have hr : rest.countP Op.isStomp = 0 := by omega
    rw [runOps_cons, ih _ hr, op_score, if_neg hb]

theorem runOps_stomped (ops : List Op) :
    ∀ s : Scene, 0 < ops.countP Op.isStomp →
      (runOps ops s).registry "score" =
        some ((fun x : Number => x + 100)^[ops.countP Op.isStomp]
          (scoreOf s)) := by
  induction ops with
  | nil => intro s h; simp at h
  | cons op rest ih =>
    intro s h
    have hop := op_score op s
    rw [runOps_cons]
    by_cases hb : op.isStomp = true
    · rw [if_pos hb] at hop
      have hs : scoreOf (op.run s).scene = scoreOf s + 100 := by
        show orZero ((op.run s).scene.registry "score") = _
        rw [hop]
        exact orZero_add_100 (s.registry "score")
      rw [List.countP_cons_of_pos _ _ hb, Function.iterate_succ_apply]
      rcases Nat.eq_zero_or_pos (rest.countP Op.isStomp) with hr | hr
      · rw [runOps_no_stomp rest _ hr, hop, hr]
        rfl
      · rw [ih _ hr, hs]
    · rw [if_neg hb] at hop
      have hs : scoreOf (op.run s).scene = scoreOf s := by
        show orZero ((op.run s).scene.registry "score") = _
        rw [hop]
        rfl
      rw [List.countP_cons_of_neg _ _ hb] at h ⊢
      rw [ih _ h, hs]

/-- C4, as the claim states it, fails.  (i) From the score `2^53 - 1` a
sequence of one stomp ends with `2^53 + 100`, not `2^53 - 1 + 100`.  (ii) For
a player at `y = 2^56 + 16` falling onto an enemy at `y = 2^56 + 32` the
condition of the claim holds with the exact difference, but the code takes the
other branch: the sequence of this one call leaves the score at 250. -/
theorem score_sum_is_rounded :
    (exactFromAbove samplePlayer sampleEnemy ∧
      (runOps [.handlePlayerEnemyCollision samplePlayer sampleEnemy]
          (sceneWithScore (Number.ofInt 9007199254740991))).registry "score" =
        some (Number.ofInt 9007199254741092) ∧
      Number.exactAdd (Number.ofInt 9007199254740991) 100 =
        Number.ofInt 9007199254741091) ∧
    (exactFromAbove highPlayer highEnemy ∧
      (runOps [.handlePlayerEnemyCollision highPlayer highEnemy]
          (sceneWithScore 250)).registry "score" = some 250 ∧
      Number.exactAdd 250 100 = 350) :=
  ⟨⟨by decide, by decide, by decide⟩, ⟨by decide, by decide, by decide⟩⟩

/-- C4, amended: over every finite sequence of scene operations, the score at
the end (an unset, zero or `NaN` score counting as 0) is the score at the
start with 100 added in double arithmetic once per stomp, a stomp being a
`handlePlayerEnemyCollision` call whose arguments pass the test of the code
(`velocity.y > 0` and `player.y < enemy.y - 10`, the difference rounded); a
sequence with no stomp leaves registry `score` exactly as it was, and a
sequence with at least one leaves it set to that value.  For an integer
starting score `n` and `c` stomps with `|n| + 100 * c ≤ 2^53` the final score
is exactly `n + 100 * c`. -/
theorem score_changes_only_by_stomps (ops : List Op) (s : Scene) :
    scoreOf (runOps ops s) =
      (fun x : Number => x + 100)^[ops.countP Op.isStomp] (scoreOf s) ∧
    (ops.countP Op.isStomp = 0 →
      (runOps ops s).registry "score" = s.registry "score") ∧
    (0 < ops.countP Op.isStomp →
      (runOps ops s).registry "score" =
        some ((fun x : Number => x + 100)^[ops.countP Op.isStomp]
          (scoreOf s))) ∧
    (∀ n : Int, scoreOf s = Number.ofInt n →
      |n| + 100 * (ops.countP Op.isStomp : Int) ≤ 2 ^ 53 →
      scoreOf (runOps ops s) =
        Number.ofInt (n + 100 * (ops.countP Op.isStomp : Int))) := by
  refine ⟨runOps_score ops s, runOps_no_stomp ops s, runOps_stomped ops s, ?_⟩
  intro n hn hb
  rw [runOps_score, hn]
  exact iterate_add_100 _ n hb

theorem score_changes_only_by_stomps_witness :
    scoreOf (runOps
      [.create (some sampleLevel), .update 16 16,
        .handlePlayerEnemyCollision samplePlayer sampleEnemy,
        .handlePlayerEnemyCollision sampleWalker sampleEnemy,
        .handlePlayerPowerUpCollision samplePlayer ⟨400, 450, "mushroom"⟩,
        .handlePlayerEnemyCollision samplePlayer sampleEnemy,
        .goalOverlap, .levelComplete] Scene.initial) = 200 :=
  (score_changes_only_by_stomps
      [.create (some sampleLevel), .update 16 16,
        .handlePlayerEnemyCollision samplePlayer sampleEnemy,
        .handlePlayerEnemyCollision sampleWalker sampleEnemy,
        .handlePlayerPowerUpCollision samplePlayer ⟨400, 450, "mushroom"⟩,
        .handlePlayerEnemyCollision samplePlayer sampleEnemy,
        .goalOverlap, .levelComplete] Scene.initial).1

/-! ## The `levelCompleting` flag -/

theorem runEvents_goal_completing (n : Nat) :
    ∀ s : Scene, truthy s.levelCompleting = true →
      runEvents (List.replicate n Event.goalOverlap) s = s := by
  induction n with
  | zero => intro s _; rfl
  | succ n ih =>
    intro s h
    rw [List.replicate_succ, runEvents_cons]
    have h1 : ((Event.toOp .goalOverlap).run s).scene = goalOverlap s := rfl
    rw [h1, goalOverlap_completing s h]
    exact ih s h

theorem op_levelCompleting (op : Op) (s : Scene)
    (hop : op.runsCreateGoal = false) (h : s.levelCompleting = some true) :
    (op.run s).scene.levelCompleting = some true := by
  cases op with
  | create level =>
    cases level with
    | none => exact h
    | some level => simp [Op.runsCreateGoal] at hop
  | update time delta =>
    obtain ⟨added, hf, _⟩ := update_frame time delta s
    show (update time delta s).scene.levelCompleting = some true
    rw [hf]; exact h
  | createEnemies d =>
    obtain ⟨en, cs, hf⟩ := createEnemies_frame d s
    show (createEnemies d s).scene.levelCompleting = some true
    rw [hf]; exact h
  | createPowerUps d =>
    obtain ⟨pu, cs, hf⟩ := createPowerUps_frame d s
    show (createPowerUps d s).scene.levelCompleting = some true
    rw [hf]; exact h
  | handlePlayerPowerUpCollision p u => exact h
  | handlePlayerEnemyCollision p e =>
    obtain ⟨reg, added, hf, _⟩ := handle_frame p e s
    show (handlePlayerEnemyCollision p e s).levelCompleting = some true
    rw [hf]; exact h
  | createGoal g => simp [Op.runsCreateGoal] at hop
  | goalOverlap =>
    show (goalOverlap s).levelCompleting = some true
    rw [goalOverlap_completing s (by rw [h]; rfl)]
    exact h
  | levelComplete => rfl
  | keydownESC => exact h

theorem runOps_levelCompleting (ops : List Op) :
    ∀ s : Scene, (∀ op ∈ ops, op.runsCreateGoal = false) →
      s.levelCompleting = some true →
      (runOps ops s).levelCompleting = some true := by
  induction ops with
  | nil => intro s _ h; exact h
  | cons op rest ih =>
    intro s hops h
    rw [runOps_cons]
    exact ih _ (fun x hx => hops x (List.mem_cons_of_mem _ hx))
      (op_levelCompleting op s (hops op (List.mem_cons_self _ _)) h)

/-- C7: `createGoal` leaves `levelCompleting` false.  Over any number of
player-goal overlaps after it, `levelComplete` runs on the first overlap and
on none of the later ones: the state after `n + 1` overlaps is the state after
a single `levelComplete` call, in which `scene.start(SCENES.LEVEL2)` has been
called once and registry `currentLevel` is 2, and a further overlap changes
nothing.  Once `levelCompleting` is true it stays true over every sequence of
operations in which the body of `createGoal` does not run (it runs on a
direct call and inside a `create` whose level loaded). -/
theorem levelComplete_runs_once (goalData : Point) (s : Scene) :
    (createGoal goalData s).levelCompleting = some false ∧
    (∀ n : Nat,
      runEvents (List.replicate (n + 1) Event.goalOverlap)
          (createGoal goalData s) = levelComplete (createGoal goalData s) ∧
      goalOverlap (runEvents (List.replicate (n + 1) Event.goalOverlap)
          (createGoal goalData s)) =
        runEvents (List.replicate (n + 1) Event.goalOverlap)
          (createGoal goalData s)) ∧
    (levelComplete (createGoal goalData s)).calls =
      (createGoal goalData s).calls ++ [.sceneStart .LEVEL2] ∧
    (levelComplete (createGoal goalData s)).registry "currentLevel" = some 2 ∧
    (levelComplete (createGoal goalData s)).levelCompleting = some true ∧
    (∀ (ops : List Op) (s1 : Scene),
      (∀ op ∈ ops, op.runsCreateGoal = false) →
      s1.levelCompleting = some true →
      (runOps ops s1).levelCompleting = some true) := by
  have hrun : ∀ n : Nat,
      runEvents (List.replicate (n + 1) Event.goalOverlap)
        (createGoal goalData s) = levelComplete (createGoal goalData s) := by
    intro n
    rw [List.replicate_succ, runEvents_cons]
    have h1 : ((Event.toOp .goalOverlap).run (createGoal goalData s)).scene =
        goalOverlap (createGoal goalData s) := rfl
    rw [h1, goalOverlap_first (createGoal goalData s) rfl]
    exact runEvents_goal_completing n (levelComplete (createGoal goalData s)) rfl
  refine ⟨rfl, ?_, rfl, ?_, rfl, ?_⟩
  · intro n
    refine ⟨hrun n, ?_⟩
    rw [hrun n]
    exact goalOverlap_completing (levelComplete (createGoal goalData s)) rfl
  · exact set_same (createGoal goalData s).registry "currentLevel" 2
  · intro ops s1 hops h
    exact runOps_levelCompleting ops s1 hops h

theorem levelComplete_runs_once_witness :
    (∀ op ∈ [Op.update 16 16, .goalOverlap, .keydownESC, .create none,
        .handlePlayerEnemyCollision samplePlayer sampleEnemy],
      op.runsCreateGoal = false) ∧
    (levelComplete (createGoal ⟨3000, 500⟩ Scene.initial)).levelCompleting =
      some true ∧
    (runOps [Op.update 16 16, .goalOverlap, .keydownESC, .create none,
        .handlePlayerEnemyCollision samplePlayer sampleEnemy]
      (levelComplete (createGoal ⟨3000, 500⟩ Scene.initial))).levelCompleting =
      some true :=
  ⟨by decide, rfl,
   (levelComplete_runs_once ⟨3000, 500⟩ Scene.initial).2.2.2.2.2
     [Op.update 16 16, .goalOverlap, .keydownESC, .create none,
        .handlePlayerEnemyCollision samplePlayer sampleEnemy]
     (levelComplete (createGoal ⟨3000, 500⟩ Scene.initial))
     (by decide) rfl⟩

end Level1Scene
